import Mathlib

/-!
# Verification of the memphis.go producer pipeline

A shallow embedding of the producer lifecycle and publish pipeline of the
memphis.go client library, together with theorems settling the frozen claims
about it.  Pure Go functions become Lean functions; the broker and the mutable
connection state are made explicit (state records threaded through the
operations, and an event log recording every publish the client attempts).

Sections:
1. character/string utilities modelling external Go stdlib helpers
   (`strconv.Atoi`, `fmt.Sprintf` of an int, `strings.Split`, `strings.Contains`)
2. the producer registry, create/destroy lifecycle (producer.go, connect.go)
3. the publish pipeline (`ProduceOpts.produce`, `validateMsg`, `sendMsgToDls`)
4. theorems for the claims
-/

/-! ## 1. String utilities (models of Go stdlib functions) -/

/-- Decimal digit character for a digit value, mirroring Go integer formatting
(external stdlib).  Values ≥ 10 never occur on the call sites. -/
def digitChar (d : Nat) : Char :=
  if d = 0 then '0' else if d = 1 then '1' else if d = 2 then '2'
  else if d = 3 then '3' else if d = 4 then '4' else if d = 5 then '5'
  else if d = 6 then '6' else if d = 7 then '7' else if d = 8 then '8'
  else '9'

/-- Value of a decimal digit character, `none` for non-digits. -/
def digitVal (c : Char) : Option Nat :=
  if c = '0' then some 0 else if c = '1' then some 1 else if c = '2' then some 2
  else if c = '3' then some 3 else if c = '4' then some 4 else if c = '5' then some 5
  else if c = '6' then some 6 else if c = '7' then some 7 else if c = '8' then some 8
  else if c = '9' then some 9 else none

/-- Fuelled digit extraction (structural recursion so that concrete inputs
evaluate by `rfl`); the fuel is always sufficient at the call site. -/
def digitsRevGo : Nat → Nat → List Char
  | 0, _ => []
  | fuel + 1, n =>
    if n < 10 then [digitChar n] else digitChar (n % 10) :: digitsRevGo fuel (n / 10)

/-- Decimal digits of `n`, least significant first (model of Go decimal
formatting of a nonnegative integer, before reversal). -/
def digitsRevCore (n : Nat) : List Char := digitsRevGo (n + 1) n

/-- Decimal representation of a natural number as characters. -/
def natReprChars (n : Nat) : List Char := (digitsRevCore n).reverse

/-- Model of Go `fmt` formatting of an `int` value. -/
def intReprChars (i : Int) : List Char :=
  if i < 0 then '-' :: natReprChars i.natAbs else natReprChars i.toNat

/-- Model of Go `fmt` formatting of an `int` value, as a string. -/
def intRepr (i : Int) : String := String.mk (intReprChars i)

/-- Accumulating decimal parser: consumes digit characters, `none` on the
first non-digit. -/
def parseNatFrom (acc : Nat) : List Char → Option Nat
  | [] => some acc
  | c :: cs =>
    match digitVal c with
    | some d => parseNatFrom (acc * 10 + d) cs
    | none => none

/-- Parse a nonempty all-digit character list as a natural number. -/
def parseNatChars : List Char → Option Nat
  | [] => none
  | c :: cs =>
    match digitVal c with
    | some d => parseNatFrom d cs
    | none => none

/-- Model of Go `strconv.Atoi` on the character list of its input
(optional leading minus sign followed by decimal digits). -/
def parseIntChars (l : List Char) : Option Int :=
  match l with
  | [] => none
  | c :: cs =>
    if c = '-' then (parseNatChars cs).map (fun n : Nat => -(n : Int))
    else (parseNatChars (c :: cs)).map (fun n : Nat => (n : Int))

/-- Model of Go `strings.Split` with a one-character separator. -/
def splitOnChar (sep : Char) : List Char → List (List Char)
  | [] => [[]]
  | c :: rest =>
    let r := splitOnChar sep rest
    if c = sep then [] :: r
    else
      match r with
      | [] => [[c]]
      | h :: t => (c :: h) :: t

/-- Does `needle` occur as a prefix-at-some-position of `hay`?
Model of Go `strings.Contains` on character lists. -/
def listHasSub (needle : List Char) : List Char → Bool
  | [] => needle.isEmpty
  | c :: rest => needle.isPrefixOf (c :: rest) || listHasSub needle rest

/-- Model of Go `strings.Contains`. -/
def strContains (hay needle : String) : Bool :=
  listHasSub needle.toList hay.toList

/-! ### Round-trip and structure lemmas for the utilities -/

theorem digitVal_digitChar {d : Nat} (h : d < 10) : digitVal (digitChar d) = some d := by
  interval_cases d <;> rfl

theorem digitChar_ne_dollar {d : Nat} (h : d < 10) : digitChar d ≠ '$' := by
  interval_cases d <;> decide

theorem digitChar_ne_minus {d : Nat} (h : d < 10) : digitChar d ≠ '-' := by
  interval_cases d <;> decide

theorem digitsRevGo_fuel : ∀ fuel1 fuel2 n, n < fuel1 → n < fuel2 →
    digitsRevGo fuel1 n = digitsRevGo fuel2 n := by
  intro fuel1
  induction fuel1 with
  | zero => intro fuel2 n h1 h2; omega
  | succ f1 ih =>
    intro fuel2 n h1 h2
    cases fuel2 with
    | zero => omega
    | succ f2 =>
      simp only [digitsRevGo]
      by_cases hn : n < 10
      · simp [hn]
      · simp only [hn, if_neg, ite_false]
        congr 1
        exact ih f2 (n / 10) (by omega) (by omega)

theorem digitsRevCore_lt {n : Nat} (h : n < 10) : digitsRevCore n = [digitChar n] := by
  simp [digitsRevCore, digitsRevGo, h]

theorem digitsRevCore_ge {n : Nat} (h : ¬n < 10) :
    digitsRevCore n = digitChar (n % 10) :: digitsRevCore (n / 10) := by
  simp only [digitsRevCore, digitsRevGo, h, ite_false]
  congr 1
  exact digitsRevGo_fuel n (n / 10 + 1) (n / 10) (by omega) (by omega)

theorem mem_digitsRevCore {c : Char} {n : Nat} (h : c ∈ digitsRevCore n) :
    ∃ d, d < 10 ∧ c = digitChar d := by
  induction n using Nat.strong_induction_on with
  | _ n ih =>
    by_cases hn : n < 10
    · rw [digitsRevCore_lt hn] at h
      exact ⟨n, hn, by simpa using h⟩
    · rw [digitsRevCore_ge hn] at h
      rcases List.mem_cons.mp h with h | h
      · exact ⟨n % 10, Nat.mod_lt _ (by omega), h⟩
      · exact ih (n / 10) (Nat.div_lt_self (by omega) (by omega)) h

theorem digitsRevCore_ne_nil (n : Nat) : digitsRevCore n ≠ [] := by
  by_cases hn : n < 10
  · rw [digitsRevCore_lt hn]; simp
  · rw [digitsRevCore_ge hn]; simp

/-- Number of decimal digits of `n`, as the power of ten it spans. -/
def tenPow (n : Nat) : Nat :=
  if h : n < 10 then 10 else 10 * tenPow (n / 10)
termination_by n
decreasing_by exact Nat.div_lt_self (by omega) (by omega)

theorem tenPow_lt {n : Nat} (h : n < 10) : tenPow n = 10 := by
  rw [tenPow]; simp [h]

theorem tenPow_ge {n : Nat} (h : ¬n < 10) : tenPow n = 10 * tenPow (n / 10) := by
  rw [tenPow]; simp [h]

theorem parseNatFrom_append (acc : Nat) (l1 l2 : List Char) :
    parseNatFrom acc (l1 ++ l2) =
      match parseNatFrom acc l1 with
      | some a => parseNatFrom a l2
      | none => none := by
  induction l1 generalizing acc with
  | nil => rfl
  | cons c cs ih =>
    simp only [List.cons_append, parseNatFrom]
    cases digitVal c with
    | none => rfl
    | some d => exact ih _

theorem parseNatFrom_digitsRev (n : Nat) :
    ∀ acc, parseNatFrom acc (digitsRevCore n).reverse = some (acc * tenPow n + n) := by
  induction n using Nat.strong_induction_on with
  | _ n ih =>
    intro acc
    by_cases hn : n < 10
    · rw [digitsRevCore_lt hn, tenPow_lt hn]
      simp [parseNatFrom, digitVal_digitChar hn]
    · rw [digitsRevCore_ge hn, tenPow_ge hn, List.reverse_cons, parseNatFrom_append,
        ih (n / 10) (Nat.div_lt_self (by omega) (by omega)) acc]
      simp only [parseNatFrom, digitVal_digitChar (Nat.mod_lt n (by omega))]
      congr 1
      have hdm : n / 10 * 10 + n % 10 = n := by omega
      calc (acc * tenPow (n / 10) + n / 10) * 10 + n % 10
          = acc * (10 * tenPow (n / 10)) + (n / 10 * 10 + n % 10) := by ring
        _ = acc * (10 * tenPow (n / 10)) + n := by rw [hdm]

theorem parseNatChars_natReprChars (n : Nat) :
    parseNatChars (natReprChars n) = some n := by
  have hne : (digitsRevCore n).reverse ≠ [] := by
    intro h
    exact digitsRevCore_ne_nil n (by simpa using congrArg List.reverse h)
  unfold natReprChars
  rcases hl : (digitsRevCore n).reverse with _ | ⟨c, cs⟩
  · exact absurd hl hne
  · have hc : c ∈ digitsRevCore n := by
      have : c ∈ (digitsRevCore n).reverse := by rw [hl]; exact List.mem_cons_self _ _
      simpa using this
    obtain ⟨d, hd, rfl⟩ := mem_digitsRevCore hc
    have hparse := parseNatFrom_digitsRev n 0
    rw [hl] at hparse
    simp only [parseNatFrom, digitVal_digitChar hd] at hparse
    simp only [parseNatChars, digitVal_digitChar hd]
    simpa using hparse

theorem mem_natReprChars_ne_dollar {c : Char} {n : Nat} (h : c ∈ natReprChars n) :
    c ≠ '$' := by
  unfold natReprChars at h
  obtain ⟨d, hd, rfl⟩ := mem_digitsRevCore (by simpa using h)
  exact digitChar_ne_dollar hd

theorem head_natReprChars_ne_minus {c : Char} {cs : List Char} {n : Nat}
    (h : natReprChars n = c :: cs) : c ≠ '-' := by
  have hc : c ∈ natReprChars n := by rw [h]; exact List.mem_cons_self _ _
  unfold natReprChars at hc
  obtain ⟨d, hd, rfl⟩ := mem_digitsRevCore (by simpa using hc)
  exact digitChar_ne_minus hd

theorem parseIntChars_intReprChars (i : Int) :
    parseIntChars (intReprChars i) = some i := by
  unfold intReprChars
  by_cases hi : i < 0
  · rw [if_pos hi]
    simp only [parseIntChars, if_pos rfl, ite_true, parseNatChars_natReprChars,
      Option.map_some']
    congr 1
    rw [Int.natCast_natAbs, abs_of_neg hi, neg_neg]
  · rw [if_neg hi]
    have hne : natReprChars i.toNat ≠ [] := by
      unfold natReprChars
      intro h
      exact digitsRevCore_ne_nil i.toNat (by simpa using congrArg List.reverse h)
    rcases hl : natReprChars i.toNat with _ | ⟨c, cs⟩
    · exact absurd hl hne
    · have hcm : c ≠ '-' := head_natReprChars_ne_minus hl
      simp only [parseIntChars, hcm, if_neg, ite_false, ← hl, parseNatChars_natReprChars,
        Option.map_some']
      congr 1
      exact Int.toNat_of_nonneg (not_lt.mp hi)

theorem mem_intReprChars_ne_dollar {c : Char} {i : Int} (h : c ∈ intReprChars i) :
    c ≠ '$' := by
  unfold intReprChars at h
  by_cases hi : i < 0
  · simp only [hi, if_pos, List.mem_cons] at h
    rcases h with rfl | h
    · decide
    · exact mem_natReprChars_ne_dollar h
  · simp only [hi, if_neg] at h
    exact mem_natReprChars_ne_dollar h

theorem splitOnChar_not_mem {sep : Char} {l : List Char} (h : sep ∉ l) :
    splitOnChar sep l = [l] := by
  induction l with
  | nil => rfl
  | cons c cs ih =>
    have hc : c ≠ sep := fun hc => h (hc ▸ List.mem_cons_self _ _)
    have hcs : sep ∉ cs := fun hm => h (List.mem_cons_of_mem _ hm)
    simp [splitOnChar, hc, ih hcs]

theorem splitOnChar_append_sep {sep : Char} {a : List Char} (b : List Char)
    (h : sep ∉ a) : splitOnChar sep (a ++ sep :: b) = a :: splitOnChar sep b := by
  induction a with
  | nil => simp [splitOnChar]
  | cons c cs ih =>
    have hc : c ≠ sep := fun hc => h (hc ▸ List.mem_cons_self _ _)
    have hcs : sep ∉ cs := fun hm => h (List.mem_cons_of_mem _ hm)
    simp only [List.cons_append, splitOnChar, hc, if_neg, ite_false, List.append_eq]
    rw [ih hcs]

theorem splitOnChar_length (sep : Char) (l : List Char) :
    (splitOnChar sep l).length = l.count sep + 1 := by
  induction l with
  | nil => rfl
  | cons c cs ih =>
    by_cases hc : c = sep
    · subst hc
      simp [splitOnChar, ih, List.count_cons]
    · simp only [splitOnChar, hc, if_neg, List.count_cons]
      rcases hr : splitOnChar sep cs with _ | ⟨h0, t0⟩
      · rw [hr] at ih; simp at ih
      · rw [hr] at ih
        simp_all [beq_iff_eq]

/-- A prefix occurrence is an occurrence. -/
theorem listHasSub_of_isPrefixOf {needle hay : List Char}
    (h : needle.isPrefixOf hay) : listHasSub needle hay = true := by
  cases hay with
  | nil =>
    cases needle with
    | nil => rfl
    | cons c cs => simp [List.isPrefixOf] at h
  | cons c cs => simp [listHasSub, h]

/-- Dropping a prefix of the needle keeps it an occurrence. -/
theorem listHasSub_suffix_of_isPrefixOf {x y hay : List Char}
    (h : (x ++ y).isPrefixOf hay) : listHasSub y hay = true := by
  induction x generalizing hay with
  | nil => exact listHasSub_of_isPrefixOf (by simpa using h)
  | cons c cs ih =>
    cases hay with
    | nil => simp [List.isPrefixOf] at h
    | cons c2 rest =>
      simp only [List.cons_append, List.isPrefixOf, Bool.and_eq_true] at h
      have := ih h.2
      simp [listHasSub, this]

/-- If the concatenation `x ++ y` occurs in `hay` then so does `y` alone. -/
theorem listHasSub_append_elim {x y hay : List Char}
    (h : listHasSub (x ++ y) hay = true) : listHasSub y hay = true := by
  induction hay with
  | nil =>
    simp only [listHasSub, List.isEmpty_iff, List.append_eq_nil] at h ⊢
    exact h.2
  | cons c rest ih =>
    simp only [listHasSub, Bool.or_eq_true] at h ⊢
    rcases h with h | h
    · have := listHasSub_suffix_of_isPrefixOf h
      simpa [listHasSub] using this
    · exact Or.inr (ih h)

/-! ## 2. Data model: producers, registry, connection state, lifecycle -/

/-- Memphis producer object (producer.go `Producer`), restricted to the fields
the single-station lifecycle reads: display name, station name, and the
name without the optional random suffix.  The connection pointer becomes
explicit state threading; `PartitionGenerator` state lives in the
produce-pipeline state below. -/
structure Producer where
  Name : String
  stationName : String
  realName : String
deriving DecidableEq, Repr

/-- Model of Go `strings.ToLower` (external stdlib): lowercase every
character. -/
def lowerString (s : String) : String := String.mk (s.toList.map Char.toLower)

/-- Modelled from the spec (§3, internal per-station identifier): the
function `getInternalName` is not under src; the spec only requires a
deterministic internal name derived from the station name. -/
def getInternalName (name : String) : String := lowerString name

/-- Producer-registry lookup (spec §4.1 `getOrCreate`; the map getter itself
is not under src).  The registry is an association list keyed by the
`station⊕name` key strings built at the call sites. -/
def getProducer (pm : List (String × Producer)) (pn : String) : Option Producer :=
  match pm with
  | [] => none
  | kv :: rest => if kv.1 = pn then some kv.2 else getProducer rest pn

/-- Modelled from the spec (§3): registry `set` stores the producer under the
key built from the station's internal name and the producer name;
`setProducer` is not under src. -/
def setProducer (pm : List (String × Producer)) (p : Producer) : List (String × Producer) :=
  (getInternalName p.stationName ++ "_" ++ p.Name, p) :: pm

/-- Modelled from the spec (§4.1): registry `remove`; `unsetProducer` is not
under src. -/
def unsetProducer (pm : List (String × Producer)) (pn : String) : List (String × Producer) :=
  pm.filter (fun kv => kv.1 ≠ pn)

/-- Connection state relevant to the producer lifecycle: the producer
registry, the per-station schema/functions push listeners (as multisets of
station names, modelling spec §4.3 refcounted subscriptions), and a counter
of control-plane RPCs issued (the call-counting stub broker of §8). -/
structure ConnState where
  producersMap : List (String × Producer)
  schemaListeners : List String
  functionsListeners : List String
  rpcCount : Nat
deriving DecidableEq, Repr

/-- Model of producer.go `cacheProducer`. -/
def cacheProducer (c : ConnState) (p : Producer) : ConnState :=
  { c with producersMap := setProducer c.producersMap p }

/-- Model of producer.go `unCacheProducer`, verbatim: the key is built from the raw
`stationName` and `realName`, and the entry is unset only when the lookup
that was just performed found nothing. -/
def unCacheProducer (c : ConnState) (p : Producer) : ConnState :=
  let pn := p.stationName ++ "_" ++ p.realName
  match getProducer c.producersMap pn with
  | none => { c with producersMap := unsetProducer c.producersMap pn }
  | some _ => c

/-- Modelled from the spec (§4.3): subscribe to the station's schema-update
push channel (`listenToSchemaUpdates` is not under src); transport always
succeeds in the model, the subscription is tracked as a refcount. -/
def listenToSchemaUpdates (c : ConnState) (stationName : String) : ConnState :=
  { c with schemaListeners := stationName :: c.schemaListeners }

/-- Modelled from the spec (§4.3): drop one schema-update subscription for
the station (`removeSchemaUpdatesListener` is not under src). -/
def removeSchemaUpdatesListener (c : ConnState) (stationName : String) : ConnState :=
  { c with schemaListeners := c.schemaListeners.erase stationName }

/-- Modelled from the spec (§4.3): drop one function-routing-update
subscription for the station (`removeFunctionsUpdatesListener` is not under
src). -/
def removeFunctionsUpdatesListener (c : ConnState) (stationName : String) : ConnState :=
  { c with functionsListeners := c.functionsListeners.erase stationName }

/-- Model of connect.go `create`, reply handling: a non-empty reply payload is an
application-level rejection, an empty payload is success.  The broker reply
itself is an input (stub broker). -/
def handleCreateReply (reply : String) : Except String Unit :=
  if 0 < reply.length then Except.error reply else Except.ok ()

/-- Model of connect.go `destroy`, reply handling: a non-empty reply payload that does
not contain `"not exist"` is an error; an empty reply or one containing
`"not exist"` is success (idempotent delete). -/
def handleDestroyReply (reply : String) : Except String Unit :=
  if 0 < reply.length && !strContains reply "not exist" then Except.error reply
  else Except.ok ()

/-- Model of producer.go `createSingleStationProducer`: registry lookup, on miss
subscribe to schema updates, issue the creation RPC (reply supplied by the
stub broker), on RPC failure remove the listener and return the error
without caching, on success cache the new producer. -/
def createSingleStationProducer (c : ConnState) (stationName name nameWithoutSuffix : String)
    (reply : String) : Except String Producer × ConnState :=
  let stationNameInner := getInternalName stationName
  let pn := stationNameInner ++ "_" ++ name
  match getProducer c.producersMap pn with
  | some cp => (Except.ok cp, c)
  | none =>
    let p : Producer := ⟨name, stationName, nameWithoutSuffix⟩
    let c1 := listenToSchemaUpdates c stationName
    let c2 := { c1 with rpcCount := c1.rpcCount + 1 }
    match handleCreateReply reply with
    | Except.error e => (Except.error e, removeSchemaUpdatesListener c2 stationName)
    | Except.ok _ => (Except.ok p, cacheProducer c2 p)

/-- Model of producer.go `CreateProducer` for a single station name, with the default
options (no unique suffix): the producer name is lowercased and both name
fields coincide. -/
def CreateProducer (c : ConnState) (stationName name : String) (reply : String) :
    Except String Producer × ConnState :=
  createSingleStationProducer c stationName (lowerString name) (lowerString name) reply

/-- Model of producer.go `destroySingleStationProducer`: remove both push listeners,
issue the destruction RPC, and on success un-cache the producer. -/
def destroySingleStationProducer (c : ConnState) (p : Producer) (reply : String) :
    Except String Unit × ConnState :=
  let c1 := removeSchemaUpdatesListener c p.stationName
  let c2 := removeFunctionsUpdatesListener c1 p.stationName
  let c3 := { c2 with rpcCount := c2.rpcCount + 1 }
  match handleDestroyReply reply with
  | Except.error e => (Except.error e, c3)
  | Except.ok _ => (Except.ok (), unCacheProducer c3 p)

/-- The per-key loop of producer.go `destroyMultiStationProducer`: look each
key up in the registry, invoke `Destroy` on present sub-producers (outcome
given by `outcome`, abstracting the per-producer broker interaction), skip
absent ones, and return immediately on the first error.  The second
component records the keys whose sub-producer destroy was invoked. -/
def destroyLoop (pm : List (String × Producer)) (keys : List String)
    (outcome : Producer → Except String Unit) : Except String Unit × List String :=
  match keys with
  | [] => (Except.ok (), [])
  | k :: rest =>
    match getProducer pm k with
    | none => destroyLoop pm rest outcome
    | some producer =>
      match outcome producer with
      | Except.error e => (Except.error e, [k])
      | Except.ok _ =>
        let r := destroyLoop pm rest outcome
        (r.1, k :: r.2)

/-- Model of producer.go `destroyMultiStationProducer`: build the per-station registry
keys from the internal station names and the suffixless producer name, then
run the destroy loop. -/
def destroyMultiStationProducer (pm : List (String × Producer)) (stationNames : List String)
    (realName : String) (outcome : Producer → Except String Unit) :
    Except String Unit × List String :=
  let internalStationNames := stationNames.map getInternalName
  let producerKeys := internalStationNames.map (fun s => s ++ "_" ++ realName)
  destroyLoop pm producerKeys outcome

/-- Specification-side definition (for the refinement comparison in C7):
"results are aggregated (first error, if any, is returned)" — the first
error among the destroys of the sub-producers present in the registry, in
key order. -/
def firstDestroyError (pm : List (String × Producer)) (keys : List String)
    (outcome : Producer → Except String Unit) : Except String Unit :=
  match keys with
  | [] => Except.ok ()
  | k :: rest =>
    match getProducer pm k with
    | none => firstDestroyError pm rest outcome
    | some producer =>
      match outcome producer with
      | Except.error e => Except.error e
      | Except.ok _ => firstDestroyError pm rest outcome

/-! ## 3. Publish pipeline -/

/-- Modelled from the spec (§7 error taxonomy); the repository's
error-definitions file is not under src, so the error values carry the
spec's taxonomy names. -/
def errBothPartitionNumAndKey : String :=
  "ConflictingPartitionSelector: can not use both partition number and partition key"

/-- Modelled from the spec (§7): explicit partition key absent from the
key→partition lookup. -/
def errPartitionNotInKey : String := "UnmappedPartitionKey"

/-- Modelled from the spec (§7): explicit partition number out of range. -/
def errInvalidPartitionNumber : String := "InvalidPartitionNumber"

/-- Modelled from the spec (§7): payload outside the accepted shapes. -/
def errUnsupportedMsgType : String := "UnsupportedPayloadType: unsupported message type"

/-- Modelled from the spec (§7): schema validation failure wrapping the
validator's error. -/
def errSchemaValidationFailed (e : String) : String := "SchemaValidationFailed: " ++ e

/-- Constant `schemaVFailAlertType` of producer.go. -/
def schemaVFailAlertType : String := "schema_validation_fail_alert"

/-- The closed set of payload shapes accepted by `validateMsg` (producer.go):
raw bytes pass through unchanged, a plain string is JSON-marshalled, and a
shape outside the accepted set is rejected.  The other accepted Go shapes
(`map[string]interface{}`, proto messages, structs) all JSON/proto-marshal
to bytes like the string case and are represented by it. -/
inductive Payload where
  | bytes (b : List Nat)
  | str (s : String)
  | unsupported
deriving DecidableEq, Repr

/-- Model of `encoding/json.Marshal` for a plain string (external library):
the quoted text's bytes; escaping of special characters is elided. -/
def jsonStringBytes (s : String) : List Nat :=
  34 :: (s.toList.map Char.toNat ++ [34])

/-- The normalization switch of producer.go `validateMsg`: produce the
original message bytes or reject the payload shape. -/
def normalizePayload : Payload → Except String (List Nat)
  | Payload.bytes b => Except.ok b
  | Payload.str s => Except.ok (jsonStringBytes s)
  | Payload.unsupported => Except.error errUnsupportedMsgType

/-- Hex digit character (model of `encoding/hex`, external library). -/
def hexDigitChar (d : Nat) : Char := if d < 10 then digitChar d else
  if d = 10 then 'a' else if d = 11 then 'b' else if d = 12 then 'c'
  else if d = 13 then 'd' else if d = 14 then 'e' else 'f'

/-- Model of `hex.EncodeToString` on a byte list (external library). -/
def hexEncode (l : List Nat) : String :=
  String.mk (l.foldr (fun b acc => hexDigitChar (b / 16 % 16) :: hexDigitChar (b % 16) :: acc) [])

/-- Every publish the client attempts on the broker connection: a data-plane
publish (`brokerPublish`), a dead-letter diversion record
(`$memphis_schemaverse_dls`), or an operator notification
(`$memphis_notifications`). -/
inductive PubEvent where
  | dataPlane (subject : String) (data : List Nat) (headers : List (String × String))
  | dls (stationName producerName connId dataHex : String)
      (headers : List (String × String)) (validationError : String)
  | operatorAlert (title body code ty : String)
deriving DecidableEq, Repr

/-- Is the event a dead-letter diversion record? -/
def PubEvent.isDls : PubEvent → Bool
  | PubEvent.dls _ _ _ _ _ _ => true
  | _ => false

/-- Number of dead-letter records among the attempted publishes. -/
def countDls (evs : List PubEvent) : Nat := (evs.filter PubEvent.isDls).length

/-- Outcomes of the broker's asynchronous primitives for one produce call
(stub broker): the data-plane publish call's error, the ack signal consumed
in synchronous mode, and the (discarded) outcomes of the dead-letter and
notification publishes. -/
structure BrokerEnv where
  publishErr : Option String
  ackErr : Option String
  dlsPubErr : Option String
  notifPubErr : Option String

/-- The per-station connection state read by one single-station produce
call: partition list and functions map (`stationPartitions`,
`stationFunctionSubs`), schema details, the per-station dead-letter and
cluster notification flags, the spec-modelled key→partition lookup, and the
round-robin cursor. -/
structure StationState where
  partitionsList : List Int
  hasFunctionsSub : Bool
  partitionsFunctions : List (Int × Int)
  schemaType : String
  validator : Payload → Option (List Nat) × Option String
  schemaverseToDls : Bool
  clusterSendNotification : Bool
  keyMap : List (String × Int)
  rrIndex : Nat

/-- Association-list lookup for the partition→function map (`map[int]int`). -/
def lookupInt (m : List (Int × Int)) (k : Int) : Option Int :=
  match m with
  | [] => none
  | kv :: rest => if kv.1 = k then some kv.2 else lookupInt rest k

/-- Insert a header value under a key (Go map store with a single value). -/
def setHeader (hs : List (String × String)) (k v : String) : List (String × String) :=
  (k, v) :: hs.filter (fun kv => kv.1 ≠ k)

/-- Model of producer.go `sendMsgToDls`: when the station's dead-letter flag is set,
publish one dead-letter record (its publish outcome is discarded, Go
`_ = Publish(...)`), and additionally an operator notification when cluster
notifications are enabled (also discarded). -/
def sendMsgToDls (dlsEnabled notifEnabled : Bool) (internStation stationDisplay pName connId : String)
    (msgToSend : List Nat) (headers : List (String × String)) (verr : String)
    (env : BrokerEnv) : List PubEvent :=
  if dlsEnabled then
    let _ := env.dlsPubErr
    PubEvent.dls internStation pName connId (hexEncode msgToSend) headers verr ::
      (if notifEnabled then
        let _ := env.notifPubErr
        [PubEvent.operatorAlert "Schema validation has failed"
          ("Station: " ++ stationDisplay ++ "\nProducer: " ++ pName ++ "\nError: " ++ verr)
          (String.mk (msgToSend.map Char.ofNat)) schemaVFailAlertType]
      else [])
  else []

/-- Model of producer.go `validateMsg`: normalize the payload; with an active schema
(non-empty schema type) run the validator, diverting failures to the
dead-letter subject, and return `SchemaValidationFailed`; with no schema
return the normalized bytes unchanged.  Alongside the result, the publishes
attempted during validation are returned. -/
def validateMsg (st : StationState) (internStation stationDisplay pName connId : String)
    (msg : Payload) (headers : List (String × String)) (env : BrokerEnv) :
    Except String (List Nat) × List PubEvent :=
  match normalizePayload msg with
  | Except.error e => (Except.error e, [])
  | Except.ok originalMsgBytes =>
    if st.schemaType ≠ "" then
      match st.validator msg with
      | (msgBytes, some verr) =>
        let msgToSend := msgBytes.getD originalMsgBytes
        (Except.error (errSchemaValidationFailed verr),
         sendMsgToDls st.schemaverseToDls st.clusterSendNotification internStation
           stationDisplay pName connId msgToSend headers verr env)
      | (msgBytes, none) => (Except.ok (msgBytes.getD []), [])
    else (Except.ok originalMsgBytes, [])

/-- Model of Go `fmt.Sprintf("%v$%v", sn, p)`: the stream-name string for a
partition. -/
def mkStreamName (sn : String) (p : Int) : String :=
  String.mk (sn.toList ++ '$' :: intReprChars p)

/-- Modelled from the spec (§4.6): resolve an explicit partition key via a
key→partition lookup; `GetPartitionFromKey` is not under src. -/
def GetPartitionFromKey (keyMap : List (String × Int)) (key : String) : Option Int :=
  match keyMap with
  | [] => none
  | kv :: rest => if kv.1 = key then some kv.2 else GetPartitionFromKey rest key

/-- Modelled from the spec (§4.6): an explicit partition number must be one
of the station's partitions; `ValidatePartitionNumber` is not under src. -/
def ValidatePartitionNumber (n : Int) (partitions : List Int) : Bool :=
  partitions.contains n

/-- Modelled from the spec (§4.4): the round-robin cursor returns the
partition id at the cursor position modulo the partition count;
`RoundRobinProducerConsumerGenerator.Next` is not under src. -/
def rrNext (partitions : List Int) (idx : Nat) : Int :=
  partitions.getD (idx % partitions.length) 0

/-- The stream-name resolution of `ProduceOpts.produce` (producer.go):
exactly one partition → `sn$p`; more than one → conflict check, explicit
key, explicit number, or round-robin; zero partitions → the bare internal
station name.  Returns the resolved name (or the local validation error)
and the round-robin cursor after the call. -/
def resolveStreamName (st : StationState) (sn : String) (opts_key : String)
    (opts_num : Int) : Except String String × Nat :=
  if st.partitionsList.length = 1 then
    (Except.ok (mkStreamName sn (st.partitionsList.getD 0 0)), st.rrIndex)
  else if 1 < st.partitionsList.length then
    if 0 < opts_num ∧ opts_key ≠ "" then
      (Except.error errBothPartitionNumAndKey, st.rrIndex)
    else if opts_key ≠ "" then
      match GetPartitionFromKey st.keyMap opts_key with
      | none => (Except.error errPartitionNotInKey, st.rrIndex)
      | some partitionNumber => (Except.ok (mkStreamName sn partitionNumber), st.rrIndex)
    else if 0 < opts_num then
      if ValidatePartitionNumber opts_num st.partitionsList then
        (Except.ok (mkStreamName sn opts_num), st.rrIndex)
      else (Except.error errInvalidPartitionNumber, st.rrIndex)
    else
      (Except.ok (mkStreamName sn (rrNext st.partitionsList st.rrIndex)), st.rrIndex + 1)
  else (Except.ok sn, st.rrIndex)

/-- Result of one produce call: success, an error, or a runtime panic
(out-of-range indexing). -/
inductive ProduceResult where
  | ok
  | error (e : String)
  | panicked
deriving DecidableEq, Repr

/-- Outcome of the subject-resolution step. -/
inductive SubjectRes where
  | ok (subject : String)
  | err (e : String)
  | panicked
deriving DecidableEq, Repr

/-- The stage-suffix step of `ProduceOpts.produce`: when the station has a
functions subscription, index element 1 of the `'$'`-split of the stream
name (a panic when out of bounds, exactly as Go's
`strings.Split(streamName, "$")[1]`), `Atoi` it, and pick
`.functions.<id>` or `.final` from the partition→function map; otherwise
append `.final`. -/
def resolveSubject (hasSub : Bool) (pf : List (Int × Int)) (streamName : String) : SubjectRes :=
  if hasSub then
    match splitOnChar '$' streamName.toList with
    | _ :: second :: _ =>
      match parseIntChars second with
      | none => SubjectRes.err "Atoi: invalid syntax"
      | some partitionNumber =>
        match lookupInt pf partitionNumber with
        | some funcID => SubjectRes.ok (streamName ++ ".functions." ++ intRepr funcID)
        | none => SubjectRes.ok (streamName ++ ".final")
    | _ => SubjectRes.panicked
  else SubjectRes.ok (streamName ++ ".final")

/-- Model of producer.go `ProduceOpts.produce` for a single-station producer: inject
the two reserved system headers, run `validateMsg`, resolve stream name and
subject, and hand the payload to the data-plane publish; in asynchronous
mode return without consuming the ack, in synchronous mode consume exactly
one ack signal.  Returns the call result, every publish attempted, and the
round-robin cursor after the call. -/
def produceOptsProduce (st : StationState) (sn stationDisplay pName connId : String)
    (msg : Payload) (opts_headers : List (String × String)) (opts_key : String)
    (opts_num : Int) (asyncProduce : Bool) (env : BrokerEnv) :
    ProduceResult × List PubEvent × Nat :=
  let headers := setHeader (setHeader opts_headers "$memphis_connectionId" connId)
    "$memphis_producedBy" pName
  match validateMsg st sn stationDisplay pName connId msg headers env with
  | (Except.error e, evs) => (ProduceResult.error e, evs, st.rrIndex)
  | (Except.ok data, evs) =>
    match resolveStreamName st sn opts_key opts_num with
    | (Except.error e, rr) => (ProduceResult.error e, evs, rr)
    | (Except.ok streamName, rr) =>
      match resolveSubject st.hasFunctionsSub st.partitionsFunctions streamName with
      | SubjectRes.panicked => (ProduceResult.panicked, evs, rr)
      | SubjectRes.err e => (ProduceResult.error e, evs, rr)
      | SubjectRes.ok fullSubjectName =>
        let evs2 := evs ++ [PubEvent.dataPlane fullSubjectName data headers]
        match env.publishErr with
        | some e => (ProduceResult.error e, evs2, rr)
        | none =>
          if asyncProduce then (ProduceResult.ok, evs2, rr)
          else
            match env.ackErr with
            | some e => (ProduceResult.error e, evs2, rr)
            | none => (ProduceResult.ok, evs2, rr)

/-! ## 4. Theorems for the claims -/

/-! ### Helper lemmas -/

theorem string_length_pos_of_ne_empty {s : String} (h : s ≠ "") : 0 < s.length := by
  rcases s with ⟨_ | ⟨c, cs⟩⟩
  · exact absurd rfl h
  · simp [String.length]

theorem getProducer_cons_self (pm : List (String × Producer)) (k : String) (p : Producer) :
    getProducer ((k, p) :: pm) k = some p := by
  simp [getProducer]

theorem handleCreateReply_empty : handleCreateReply "" = Except.ok () := rfl

theorem handleCreateReply_nonempty {reply : String} (h : reply ≠ "") :
    handleCreateReply reply = Except.error reply := by
  unfold handleCreateReply
  rw [if_pos (string_length_pos_of_ne_empty h)]

theorem destroyLoop_fst (pm : List (String × Producer)) (keys : List String)
    (outcome : Producer → Except String Unit) :
    (destroyLoop pm keys outcome).1 = firstDestroyError pm keys outcome := by
  induction keys with
  | nil => rfl
  | cons k rest ih =>
    cases hk : getProducer pm k with
    | none => simp only [destroyLoop, firstDestroyError, hk]; exact ih
    | some producer =>
      cases ho : outcome producer with
      | error e => simp only [destroyLoop, firstDestroyError, hk, ho]
      | ok u => simp only [destroyLoop, firstDestroyError, hk, ho]; exact ih

theorem destroyLoop_all_ok (pm : List (String × Producer)) (keys : List String)
    (outcome : Producer → Except String Unit)
    (h : ∀ k p, k ∈ keys → getProducer pm k = some p → outcome p = Except.ok ()) :
    destroyLoop pm keys outcome =
      (Except.ok (), keys.filter (fun k => (getProducer pm k).isSome)) := by
  induction keys with
  | nil => rfl
  | cons k rest ih =>
    have hrest : ∀ k2 p, k2 ∈ rest → getProducer pm k2 = some p → outcome p = Except.ok () :=
      fun k2 p hm => h k2 p (List.mem_cons_of_mem _ hm)
    cases hk : getProducer pm k with
    | none =>
      simp only [destroyLoop, List.filter_cons, hk, Option.isSome_none, ite_false]
      exact ih hrest
    | some producer =>
      have ho : outcome producer = Except.ok () := h k producer (List.mem_cons_self _ _) hk
      simp only [destroyLoop, List.filter_cons, hk, ho, Option.isSome_some, ite_true,
        ih hrest]

/-! ### C1 -/

/-- C1: after a successful `CreateProducer` followed by a successful
`Destroy` of a single-station producer, the claim says the registry lookup
for the `(station, name)` key returns no producer.  Evaluating the code at
station `"s1"`, producer `"p1"` (empty broker replies, i.e. both RPCs
succeed) shows the opposite: `unCacheProducer`'s guard is inverted — it
unsets the key only when the lookup it just performed found nothing — so
the entry survives the destroy and the lookup still returns the producer. -/
theorem C1_destroy_leaves_registry_entry :
    (CreateProducer ⟨[], [], [], 0⟩ "s1" "p1" "").1 = Except.ok ⟨"p1", "s1", "p1"⟩ ∧
    (destroySingleStationProducer (CreateProducer ⟨[], [], [], 0⟩ "s1" "p1" "").2
        ⟨"p1", "s1", "p1"⟩ "").1 = Except.ok () ∧
    getProducer (destroySingleStationProducer (CreateProducer ⟨[], [], [], 0⟩ "s1" "p1" "").2
        ⟨"p1", "s1", "p1"⟩ "").2.producersMap "s1_p1" = some ⟨"p1", "s1", "p1"⟩ :=
  ⟨rfl, rfl, rfl⟩

/-! ### C2 -/

/-- C2: calling `CreateProducer` a second time with the same station and
name returns the identical cached producer, leaves the connection state
unchanged, and issues no second creation RPC: exactly one RPC is counted
in total.  The hypothesis states the producer was not cached beforehand;
the first call's broker reply is empty (success). -/
theorem C2_createProducer_idempotent (c : ConnState) (station name reply2 : String)
    (h : getProducer c.producersMap
      (getInternalName station ++ "_" ++ lowerString name) = none) :
    ∃ p, (CreateProducer c station name "").1 = Except.ok p ∧
      CreateProducer (CreateProducer c station name "").2 station name reply2 =
        (Except.ok p, (CreateProducer c station name "").2) ∧
      (CreateProducer (CreateProducer c station name "").2 station name reply2).2.rpcCount =
        c.rpcCount + 1 := by
  refine ⟨⟨lowerString name, station, lowerString name⟩, ?_, ?_, ?_⟩
  · simp [CreateProducer, createSingleStationProducer, h, handleCreateReply_empty]
  · simp [CreateProducer, createSingleStationProducer, h, handleCreateReply_empty,
      cacheProducer, setProducer, listenToSchemaUpdates, getProducer_cons_self]
  · simp [CreateProducer, createSingleStationProducer, h, handleCreateReply_empty,
      cacheProducer, setProducer, listenToSchemaUpdates, getProducer_cons_self]

/-- Witness for C2 at a concrete input: empty initial state, station
`"s1"`, name `"P"`. -/
theorem C2_createProducer_idempotent_witness :
    getProducer (⟨[], [], [], 0⟩ : ConnState).producersMap
        (getInternalName "s1" ++ "_" ++ lowerString "P") = none ∧
    ∃ p, (CreateProducer ⟨[], [], [], 0⟩ "s1" "P" "").1 = Except.ok p ∧
      CreateProducer (CreateProducer ⟨[], [], [], 0⟩ "s1" "P" "").2 "s1" "P" "oops" =
        (Except.ok p, (CreateProducer ⟨[], [], [], 0⟩ "s1" "P" "").2) ∧
      (CreateProducer (CreateProducer ⟨[], [], [], 0⟩ "s1" "P" "").2 "s1" "P" "oops").2.rpcCount =
        (⟨[], [], [], 0⟩ : ConnState).rpcCount + 1 :=
  ⟨rfl, C2_createProducer_idempotent ⟨[], [], [], 0⟩ "s1" "P" "oops" rfl⟩

/-! ### C9 -/

/-- C9: when the creation RPC inside `CreateProducer` fails (non-empty broker
reply) for a producer that was not already cached, the call returns the
error with the producer registry unchanged, the schema-updates listener
registered earlier in the same call removed again, and only the RPC counter
advanced: no partial state is left behind. -/
theorem C9_create_error_leaves_no_partial_state (c : ConnState) (station name reply : String)
    (hreply : reply ≠ "")
    (h : getProducer c.producersMap
      (getInternalName station ++ "_" ++ lowerString name) = none) :
    CreateProducer c station name reply =
      (Except.error reply, { c with rpcCount := c.rpcCount + 1 }) := by
  simp [CreateProducer, createSingleStationProducer, h, handleCreateReply_nonempty hreply,
    listenToSchemaUpdates, removeSchemaUpdatesListener]

/-- Witness for C9 at a concrete input: empty initial state, station
`"s1"`, name `"p1"`, failing reply `"err"`. -/
theorem C9_create_error_leaves_no_partial_state_witness :
    ("err" : String) ≠ "" ∧
    getProducer (⟨[], [], [], 0⟩ : ConnState).producersMap
      (getInternalName "s1" ++ "_" ++ lowerString "p1") = none ∧
    CreateProducer ⟨[], [], [], 0⟩ "s1" "p1" "err" =
      (Except.error "err", { (⟨[], [], [], 0⟩ : ConnState) with rpcCount := 0 + 1 }) :=
  ⟨by decide, rfl,
    C9_create_error_leaves_no_partial_state ⟨[], [], [], 0⟩ "s1" "p1" "err" (by decide) rfl⟩

/-! ### C6 -/

/-- C6: connect.go `destroy` reply handling is idempotent on absent
entities: a reply containing `"does not exist"` (hence the code's
`"not exist"` indication) yields success, while any other non-empty reply
is returned as an error. -/
theorem C6_destroy_idempotent_on_absent (reply : String) :
    (strContains reply "does not exist" = true → handleDestroyReply reply = Except.ok ()) ∧
    (reply ≠ "" → strContains reply "not exist" = false →
      handleDestroyReply reply = Except.error reply) := by
  constructor
  · intro h
    have hsplit : ("does not exist".toList) = "does ".toList ++ "not exist".toList := by decide
    unfold strContains at h
    rw [hsplit] at h
    have h2 := listHasSub_append_elim h
    unfold handleDestroyReply strContains
    rw [h2]
    simp
  · intro h1 h2
    unfold handleDestroyReply
    rw [h2]
    simp [string_length_pos_of_ne_empty h1]

/-- Witness for C6 at concrete replies. -/
theorem C6_destroy_idempotent_on_absent_witness :
    handleDestroyReply "Producer does not exist" = Except.ok () ∧
    handleDestroyReply "boom" = Except.error "boom" :=
  ⟨(C6_destroy_idempotent_on_absent "Producer does not exist").1 (by decide),
   (C6_destroy_idempotent_on_absent "boom").2 (by decide) (by decide)⟩

/-! ### C7 -/

/-- Sub-producer of a fan-out producer for station `"s1"`. -/
def producerS1 : Producer := ⟨"p", "s1", "p"⟩

/-- Sub-producer of a fan-out producer for station `"s2"`. -/
def producerS2 : Producer := ⟨"p", "s2", "p"⟩

/-- Registry holding both sub-producers. -/
def registryTwo : List (String × Producer) := [("s1_p", producerS1), ("s2_p", producerS2)]

/-- Registry holding only the `"s1"` sub-producer. -/
def registryOne : List (String × Producer) := [("s1_p", producerS1)]

/-- Sub-destroy outcome that fails for the `"s1"` sub-producer. -/
def outcomeFailFirst : Producer → Except String Unit :=
  fun q => if q.stationName = "s1" then Except.error "boom" else Except.ok ()

/-- Sub-destroy outcome that always succeeds. -/
def outcomeAllOk : Producer → Except String Unit := fun _ => Except.ok ()

/-- C7 counterexample: with both sub-producers present and the first destroy
failing, `destroyMultiStationProducer` returns the error after invoking only
the first sub-producer's destroy — the second sub-producer is present in the
registry but its destroy is never invoked, contradicting the claim that
every present sub-producer has had its destroy invoked when `Destroy`
returns. -/
theorem C7_counterexample_abort_on_first_error :
    destroyMultiStationProducer registryTwo ["s1", "s2"] "p" outcomeFailFirst =
      (Except.error "boom", ["s1_p"]) ∧
    getProducer registryTwo "s2_p" = some producerS2 ∧
    "s2_p" ∉ (destroyMultiStationProducer registryTwo ["s1", "s2"] "p" outcomeFailFirst).2 := by
  refine ⟨rfl, rfl, ?_⟩
  decide

/-- C7 (amended): `destroyMultiStationProducer` silently skips stations
whose sub-producer is absent from the registry and returns the first error
among the destroys of present sub-producers, invoking them in key order
only up to that first failure; when no destroy fails, every present
sub-producer's destroy is invoked (and exactly those). -/
theorem C7_multi_destroy_behaviour (pm : List (String × Producer)) (stationNames : List String)
    (realName : String) (outcome : Producer → Except String Unit) :
    (destroyMultiStationProducer pm stationNames realName outcome).1 =
      firstDestroyError pm
        ((stationNames.map getInternalName).map (fun s => s ++ "_" ++ realName)) outcome ∧
    ((∀ k p, k ∈ (stationNames.map getInternalName).map (fun s => s ++ "_" ++ realName) →
        getProducer pm k = some p → outcome p = Except.ok ()) →
      destroyMultiStationProducer pm stationNames realName outcome =
        (Except.ok (),
          ((stationNames.map getInternalName).map (fun s => s ++ "_" ++ realName)).filter
            (fun k => (getProducer pm k).isSome))) := by
  constructor
  · exact destroyLoop_fst pm _ outcome
  · intro h
    exact destroyLoop_all_ok pm _ outcome h

/-- Witness for C7 at a concrete input: station `"s2"`'s sub-producer is
absent and skipped, the present `"s1"` sub-producer is destroyed, no error. -/
theorem C7_multi_destroy_behaviour_witness :
    destroyMultiStationProducer registryOne ["s1", "s2"] "p" outcomeAllOk =
      (Except.ok (), ["s1_p"]) := by
  have h := (C7_multi_destroy_behaviour registryOne ["s1", "s2"] "p" outcomeAllOk).2
    (fun k p hk hp => rfl)
  rw [h]
  rfl

/-! ### Helper lemmas for the publish pipeline -/

theorem validateMsg_no_schema (st : StationState) (a b c d : String) (msg : Payload)
    (headers : List (String × String)) (env : BrokerEnv) (bytes : List Nat)
    (hS : st.schemaType = "") (hM : normalizePayload msg = Except.ok bytes) :
    validateMsg st a b c d msg headers env = (Except.ok bytes, []) := by
  unfold validateMsg
  rw [hM]
  simp [hS]

/-- Whenever the schema gate passes — by whichever of its success paths (no
active schema, or an active schema whose validator accepts) — the call
attempts no publish: the event list is empty. -/
theorem validateMsg_of_fst_ok (st : StationState) (a b c d : String) (msg : Payload)
    (headers : List (String × String)) (env : BrokerEnv) (bytes : List Nat)
    (h : (validateMsg st a b c d msg headers env).1 = Except.ok bytes) :
    validateMsg st a b c d msg headers env = (Except.ok bytes, []) := by
  cases hM : normalizePayload msg with
  | error e =>
    simp only [validateMsg, hM] at h
    exact absurd h (by simp)
  | ok orig =>
    by_cases hS : st.schemaType ≠ ""
    · rcases hV : st.validator msg with ⟨mb, verr⟩
      cases verr with
      | some e =>
        simp only [validateMsg, hM, if_pos hS, hV] at h
        exact absurd h (by simp)
      | none =>
        simp only [validateMsg, hM, if_pos hS, hV] at h ⊢
        simp only [Except.ok.injEq] at h
        rw [h]
    · simp only [validateMsg, hM, if_neg hS] at h ⊢
      simp only [Except.ok.injEq] at h
      rw [h]

theorem validateMsg_schema_fail (st : StationState) (a b c d : String) (msg : Payload)
    (headers : List (String × String)) (env : BrokerEnv) (origBytes : List Nat)
    (mb : Option (List Nat)) (verr : String)
    (hS : st.schemaType ≠ "") (hM : normalizePayload msg = Except.ok origBytes)
    (hV : st.validator msg = (mb, some verr)) :
    validateMsg st a b c d msg headers env =
      (Except.error (errSchemaValidationFailed verr),
       sendMsgToDls st.schemaverseToDls st.clusterSendNotification a b c d
         (mb.getD origBytes) headers verr env) := by
  simp only [validateMsg, hM]
  rw [if_pos hS, hV]

theorem countDls_sendMsgToDls (dls notif : Bool) (a b c d : String) (ms : List Nat)
    (headers : List (String × String)) (verr : String) (env : BrokerEnv) :
    countDls (sendMsgToDls dls notif a b c d ms headers verr env) =
      if dls then 1 else 0 := by
  cases dls <;> cases notif <;> simp [sendMsgToDls, countDls, PubEvent.isDls]

theorem resolveStreamName_single (st : StationState) (sn key : String) (num : Int)
    (p : Int) (hp : st.partitionsList = [p]) :
    resolveStreamName st sn key num = (Except.ok (mkStreamName sn p), st.rrIndex) := by
  unfold resolveStreamName
  rw [hp]
  simp

theorem resolveStreamName_empty (st : StationState) (sn key : String) (num : Int)
    (hp : st.partitionsList = []) :
    resolveStreamName st sn key num = (Except.ok sn, st.rrIndex) := by
  unfold resolveStreamName
  rw [hp]
  simp

theorem split_mkStreamName (sn : String) (p : Int) (h : '$' ∉ sn.toList) :
    splitOnChar '$' (mkStreamName sn p).toList = [sn.toList, intReprChars p] := by
  have h2 : '$' ∉ intReprChars p := fun hm => mem_intReprChars_ne_dollar hm rfl
  show splitOnChar '$' (sn.toList ++ '$' :: intReprChars p) = _
  rw [splitOnChar_append_sep _ h, splitOnChar_not_mem h2]

theorem resolveSubject_no_sub (pf : List (Int × Int)) (s : String) :
    resolveSubject false pf s = SubjectRes.ok (s ++ ".final") := rfl

theorem resolveSubject_with_sub (pf : List (Int × Int)) (sn : String) (p : Int)
    (h : '$' ∉ sn.toList) :
    resolveSubject true pf (mkStreamName sn p) =
      match lookupInt pf p with
      | some funcID => SubjectRes.ok (mkStreamName sn p ++ ".functions." ++ intRepr funcID)
      | none => SubjectRes.ok (mkStreamName sn p ++ ".final") := by
  unfold resolveSubject
  rw [if_pos rfl, split_mkStreamName sn p h]
  show (match parseIntChars (intReprChars p) with
    | none => SubjectRes.err "Atoi: invalid syntax"
    | some partitionNumber =>
      match lookupInt pf partitionNumber with
      | some funcID => SubjectRes.ok (mkStreamName sn p ++ ".functions." ++ intRepr funcID)
      | none => SubjectRes.ok (mkStreamName sn p ++ ".final")) = _
  rw [parseIntChars_intReprChars p]

theorem resolveSubject_mkStreamName_ne_panicked (hasSub : Bool) (pf : List (Int × Int))
    (sn : String) (p : Int) :
    resolveSubject hasSub pf (mkStreamName sn p) ≠ SubjectRes.panicked := by
  cases hasSub with
  | false => simp [resolveSubject]
  | true =>
    unfold resolveSubject
    rw [if_pos rfl]
    have hlen : 2 ≤ (splitOnChar '$' (mkStreamName sn p).toList).length := by
      show 2 ≤ (splitOnChar '$' (sn.toList ++ '$' :: intReprChars p)).length
      rw [splitOnChar_length]
      have hcount : 0 < (sn.toList ++ '$' :: intReprChars p).count '$' := by
        rw [List.count_append]
        have hc : 0 < ('$' :: intReprChars p).count '$' := by
          rw [List.count_cons]
          simp
        omega
      omega
    rcases hsp : splitOnChar '$' (mkStreamName sn p).toList with _ | ⟨a, _ | ⟨b, t⟩⟩
    · rw [hsp] at hlen; simp at hlen
    · rw [hsp] at hlen; simp at hlen
    · cases hpb : parseIntChars b with
      | none => simp [hpb]
      | some q =>
        cases hpq : lookupInt pf q with
        | none => simp [hpb, hpq]
        | some f => simp [hpb, hpq]

theorem resolveStreamName_ok_shape (st : StationState) (sn key : String) (num : Int)
    (hne : st.partitionsList ≠ []) {s : String} {rr : Nat}
    (h : resolveStreamName st sn key num = (Except.ok s, rr)) :
    ∃ k, s = mkStreamName sn k := by
  unfold resolveStreamName at h
  by_cases h1 : st.partitionsList.length = 1
  · rw [if_pos h1] at h
    simp only [Prod.mk.injEq, Except.ok.injEq] at h
    exact ⟨_, h.1.symm⟩
  · rw [if_neg h1] at h
    have h2 : 1 < st.partitionsList.length := by
      rcases hl : st.partitionsList with _ | ⟨x, xs⟩
      · exact absurd hl hne
      · rw [hl] at h1
        simp only [List.length_cons] at h1 ⊢
        omega
    rw [if_pos h2] at h
    by_cases h3 : 0 < num ∧ key ≠ ""
    · rw [if_pos h3] at h
      simp at h
    · rw [if_neg h3] at h
      by_cases h4 : key ≠ ""
      · rw [if_pos h4] at h
        rcases hk : GetPartitionFromKey st.keyMap key with _ | pn
        · rw [hk] at h
          simp at h
        · rw [hk] at h
          simp only [Prod.mk.injEq, Except.ok.injEq] at h
          exact ⟨_, h.1.symm⟩
      · rw [if_neg h4] at h
        by_cases h5 : 0 < num
        · rw [if_pos h5] at h
          by_cases h6 : ValidatePartitionNumber num st.partitionsList = true
          · rw [if_pos h6] at h
            simp only [Prod.mk.injEq, Except.ok.injEq] at h
            exact ⟨_, h.1.symm⟩
          · rw [if_neg h6] at h
            simp at h
        · rw [if_neg h5] at h
          simp only [Prod.mk.injEq, Except.ok.injEq] at h
          exact ⟨_, h.1.symm⟩

theorem produce_events_with (st : StationState) (sn stationDisplay pName connId : String)
    (msg : Payload) (hs : List (String × String)) (key : String) (num : Int)
    (asyncP : Bool) (env : BrokerEnv) (bytes : List Nat) (streamName subject : String)
    (rr : Nat)
    (hv : validateMsg st sn stationDisplay pName connId msg
      (setHeader (setHeader hs "$memphis_connectionId" connId) "$memphis_producedBy" pName)
      env = (Except.ok bytes, []))
    (hr : resolveStreamName st sn key num = (Except.ok streamName, rr))
    (hsubj : resolveSubject st.hasFunctionsSub st.partitionsFunctions streamName =
      SubjectRes.ok subject) :
    (produceOptsProduce st sn stationDisplay pName connId msg hs key num asyncP env).2.1 =
      [PubEvent.dataPlane subject bytes
        (setHeader (setHeader hs "$memphis_connectionId" connId)
          "$memphis_producedBy" pName)] := by
  simp only [produceOptsProduce, hv, hr, hsubj]
  rcases env with ⟨pe, ae, de, nf⟩
  cases pe <;> cases asyncP <;> cases ae <;> rfl

/-! ### Concrete stations and broker environments used by the witnesses -/

/-- Broker environment in which every publish and ack succeeds. -/
def envOk : BrokerEnv := ⟨none, none, none, none⟩

/-- Schema validator that accepts every payload. -/
def passValidator : Payload → Option (List Nat) × Option String := fun _ => (none, none)

/-- Schema validator that rejects every payload. -/
def failValidator : Payload → Option (List Nat) × Option String :=
  fun _ => (none, some "bad payload")

/-- Station with a single partition `1`, no functions subscription, no
schema. -/
def stOne : StationState :=
  { partitionsList := [1], hasFunctionsSub := false, partitionsFunctions := [],
    schemaType := "", validator := passValidator, schemaverseToDls := false,
    clusterSendNotification := false, keyMap := [], rrIndex := 0 }

/-- Station with two partitions. -/
def stMulti : StationState := { stOne with partitionsList := [1, 2] }

/-- Station with an empty partition list but a functions subscription — the
state reachable from a creation response with `StationVersion ≥ 2` and an
empty partition list. -/
def stPanic : StationState := { stOne with partitionsList := [], hasFunctionsSub := true }

/-- Station with one partition `5` whose assigned routing function is `3`. -/
def stFun : StationState :=
  { stOne with partitionsList := [5], hasFunctionsSub := true, partitionsFunctions := [(5, 3)] }

/-- Station with an active schema whose validator rejects, dead-letter flag
set, notifications off. -/
def stSchemaFail : StationState :=
  { stOne with schemaType := "json", validator := failValidator, schemaverseToDls := true }

/-! ### C3 -/

/-- C3 counterexample: on a station with exactly one partition, a produce
call supplying both a non-empty partition key and a positive partition
number does NOT fail — the conflict check only runs in the more-than-one-
partition branch, so the call publishes normally, contradicting the claim
as stated for every produce call. -/
theorem C3_counterexample_single_partition :
    produceOptsProduce stOne "s1" "s1" "p" "conn" (Payload.bytes [1]) [] "mykey" 2 true envOk =
      (ProduceResult.ok,
       [PubEvent.dataPlane "s1$1.final" [1]
          [("$memphis_producedBy", "p"), ("$memphis_connectionId", "conn")]], 0) := rfl

/-- C3 (amended): on a station with more than one partition, a produce call
whose message passes the schema gate (no active schema, or an active schema
whose validator accepts) and which supplies both a non-empty partition key
and a positive partition number fails with the `ConflictingPartitionSelector`
error before any publish of any kind: the returned event log is empty. -/
theorem C3_conflict_error_multi_partition (st : StationState)
    (sn stationDisplay pName connId : String) (msg : Payload)
    (hs : List (String × String)) (key : String) (num : Int) (asyncP : Bool)
    (env : BrokerEnv) (bytes : List Nat)
    (hGate : (validateMsg st sn stationDisplay pName connId msg
      (setHeader (setHeader hs "$memphis_connectionId" connId) "$memphis_producedBy" pName)
      env).1 = Except.ok bytes)
    (hLen : 1 < st.partitionsList.length) (hNum : 0 < num) (hKey : key ≠ "") :
    produceOptsProduce st sn stationDisplay pName connId msg hs key num asyncP env =
      (ProduceResult.error errBothPartitionNumAndKey, [], st.rrIndex) := by
  have hv := validateMsg_of_fst_ok st sn stationDisplay pName connId msg
    (setHeader (setHeader hs "$memphis_connectionId" connId) "$memphis_producedBy" pName)
    env bytes hGate
  have hr : resolveStreamName st sn key num =
      (Except.error errBothPartitionNumAndKey, st.rrIndex) := by
    unfold resolveStreamName
    rw [if_neg (by omega : ¬st.partitionsList.length = 1), if_pos hLen,
      if_pos ⟨hNum, hKey⟩]
  simp only [produceOptsProduce, hv, hr]

/-- Witness for the amended C3 at a concrete input: two partitions, key
`"k"` and number `2` both supplied. -/
theorem C3_conflict_error_multi_partition_witness :
    (validateMsg stMulti "s1" "s1" "p" "conn" (Payload.bytes [1])
      (setHeader (setHeader [] "$memphis_connectionId" "conn") "$memphis_producedBy" "p")
      envOk).1 = Except.ok [1] ∧
    1 < stMulti.partitionsList.length ∧ (0 : Int) < 2 ∧ ("k" : String) ≠ "" ∧
    produceOptsProduce stMulti "s1" "s1" "p" "conn" (Payload.bytes [1]) [] "k" 2 true envOk =
      (ProduceResult.error errBothPartitionNumAndKey, [], stMulti.rrIndex) :=
  ⟨rfl, by decide, by decide, by decide,
   C3_conflict_error_multi_partition stMulti "s1" "s1" "p" "conn" (Payload.bytes [1]) []
     "k" 2 true envOk [1] rfl (by decide) (by decide) (by decide)⟩

/-! ### C4 -/

/-- C4 counterexample: a station with zero partitions that IS present in the
functions-update map does not publish to the bare station name with the
`.final` suffix — the subject-resolution step panics (index 1 of a
one-element split), so nothing is published at all. -/
theorem C4_counterexample_zero_partitions :
    stPanic.partitionsList = [] ∧
    produceOptsProduce stPanic "s1" "s1" "p" "conn" (Payload.bytes [1]) [] "" (-1) true envOk =
      (ProduceResult.panicked, [], 0) :=
  ⟨rfl, rfl⟩

/-- C4 (amended): for a produce call whose message passes the schema gate
(no active schema, or an active schema whose validator accepts) on a
station whose partition list is exactly `[p]`: with no routing function
assigned to `p` (station absent from the functions map or `p` unmapped) the
single publish goes to `station$p.final`; with function `f` assigned to `p`
it goes to `station$p.functions.f`; and a station with zero partitions that
is absent from the functions-update map publishes to the bare station name
with the `.final` suffix. -/
theorem C4_subject_resolution (st : StationState) (sn stationDisplay pName connId : String)
    (msg : Payload) (hs : List (String × String)) (key : String) (num : Int)
    (asyncP : Bool) (env : BrokerEnv) (bytes : List Nat)
    (hsn : '$' ∉ sn.toList)
    (hGate : (validateMsg st sn stationDisplay pName connId msg
      (setHeader (setHeader hs "$memphis_connectionId" connId) "$memphis_producedBy" pName)
      env).1 = Except.ok bytes) :
    (∀ p, st.partitionsList = [p] →
      (st.hasFunctionsSub = false ∨ lookupInt st.partitionsFunctions p = none) →
      (produceOptsProduce st sn stationDisplay pName connId msg hs key num asyncP env).2.1 =
        [PubEvent.dataPlane (mkStreamName sn p ++ ".final") bytes
          (setHeader (setHeader hs "$memphis_connectionId" connId)
            "$memphis_producedBy" pName)]) ∧
    (∀ p funcID, st.partitionsList = [p] → st.hasFunctionsSub = true →
      lookupInt st.partitionsFunctions p = some funcID →
      (produceOptsProduce st sn stationDisplay pName connId msg hs key num asyncP env).2.1 =
        [PubEvent.dataPlane (mkStreamName sn p ++ ".functions." ++ intRepr funcID) bytes
          (setHeader (setHeader hs "$memphis_connectionId" connId)
            "$memphis_producedBy" pName)]) ∧
    (st.partitionsList = [] → st.hasFunctionsSub = false →
      (produceOptsProduce st sn stationDisplay pName connId msg hs key num asyncP env).2.1 =
        [PubEvent.dataPlane (sn ++ ".final") bytes
          (setHeader (setHeader hs "$memphis_connectionId" connId)
            "$memphis_producedBy" pName)]) := by
  have hv := validateMsg_of_fst_ok st sn stationDisplay pName connId msg
    (setHeader (setHeader hs "$memphis_connectionId" connId) "$memphis_producedBy" pName)
    env bytes hGate
  refine ⟨?_, ?_, ?_⟩
  · intro p hp hcase
    refine produce_events_with st sn stationDisplay pName connId msg hs key num asyncP env
      bytes (mkStreamName sn p) _ st.rrIndex hv
      (resolveStreamName_single st sn key num p hp) ?_
    rcases hcase with hfs | hnone
    · rw [hfs]
      exact resolveSubject_no_sub _ _
    · cases hfs2 : st.hasFunctionsSub with
      | false => exact resolveSubject_no_sub _ _
      | true => rw [resolveSubject_with_sub st.partitionsFunctions sn p hsn, hnone]
  · intro p funcID hp hfs hlook
    refine produce_events_with st sn stationDisplay pName connId msg hs key num asyncP env
      bytes (mkStreamName sn p) _ st.rrIndex hv
      (resolveStreamName_single st sn key num p hp) ?_
    rw [hfs, resolveSubject_with_sub st.partitionsFunctions sn p hsn, hlook]
  · intro hp hfs
    refine produce_events_with st sn stationDisplay pName connId msg hs key num asyncP env
      bytes sn _ st.rrIndex hv (resolveStreamName_empty st sn key num hp) ?_
    rw [hfs]
    exact resolveSubject_no_sub _ _

/-- Witness for the amended C4 at a concrete input: partition `5` with
routing function `3` assigned — the publish lands on
`s1$5.functions.3`. -/
theorem C4_subject_resolution_witness :
    (produceOptsProduce stFun "s1" "s1" "p" "conn" (Payload.bytes [7]) [] "" (-1) true envOk).2.1 =
      [PubEvent.dataPlane "s1$5.functions.3" [7]
        [("$memphis_producedBy", "p"), ("$memphis_connectionId", "conn")]] := by
  have h := (C4_subject_resolution stFun "s1" "s1" "p" "conn" (Payload.bytes [7]) [] ""
    (-1) true envOk [7] (by decide) rfl).2.1
  have h2 := h 5 3 rfl rfl rfl
  rw [h2]
  rfl

/-! ### C5 -/

/-- C5: when an active schema's validation fails, the produce call returns
the `SchemaValidationFailed` error wrapping the validator's error, and
exactly one dead-letter record is attempted when the station's dead-letter
flag is set and zero when it is not; the broker environment — including a
failing dead-letter or notification publish — is universally quantified and
never changes the returned error. -/
theorem C5_validation_failure_dls (st : StationState) (sn stationDisplay pName connId : String)
    (msg : Payload) (hs : List (String × String)) (key : String) (num : Int)
    (asyncP : Bool) (env : BrokerEnv) (origBytes : List Nat) (mb : Option (List Nat))
    (verr : String)
    (hS : st.schemaType ≠ "") (hM : normalizePayload msg = Except.ok origBytes)
    (hV : st.validator msg = (mb, some verr)) :
    (produceOptsProduce st sn stationDisplay pName connId msg hs key num asyncP env).1 =
      ProduceResult.error (errSchemaValidationFailed verr) ∧
    countDls (produceOptsProduce st sn stationDisplay pName connId msg hs key num asyncP env).2.1 =
      (if st.schemaverseToDls then 1 else 0) := by
  have hv := validateMsg_schema_fail st sn stationDisplay pName connId msg
    (setHeader (setHeader hs "$memphis_connectionId" connId) "$memphis_producedBy" pName)
    env origBytes mb verr hS hM hV
  constructor
  · simp only [produceOptsProduce, hv]
  · simp only [produceOptsProduce, hv]
    exact countDls_sendMsgToDls st.schemaverseToDls st.clusterSendNotification sn
      stationDisplay pName connId (mb.getD origBytes)
      (setHeader (setHeader hs "$memphis_connectionId" connId) "$memphis_producedBy" pName)
      verr env

/-- Witness for C5 at a concrete input: active schema, failing validator,
dead-letter flag set — the error is returned and one dead-letter record is
attempted. -/
theorem C5_validation_failure_dls_witness :
    stSchemaFail.schemaType ≠ "" ∧
    (produceOptsProduce stSchemaFail "s1" "s1" "p" "conn" (Payload.bytes [1]) [] ""
      (-1) true envOk).1 = ProduceResult.error (errSchemaValidationFailed "bad payload") ∧
    countDls (produceOptsProduce stSchemaFail "s1" "s1" "p" "conn" (Payload.bytes [1]) [] ""
      (-1) true envOk).2.1 = 1 := by
  have h := C5_validation_failure_dls stSchemaFail "s1" "s1" "p" "conn" (Payload.bytes [1])
    [] "" (-1) true envOk [1] none "bad payload" (by decide) rfl rfl
  exact ⟨by decide, h.1, h.2.trans rfl⟩

/-! ### C8 -/

/-- C8: with no active schema (empty schema type), every data-plane publish
a produce call attempts for a raw-bytes payload carries exactly the bytes
the caller supplied. -/
theorem C8_bytes_published_unchanged (st : StationState) (sn stationDisplay pName connId : String)
    (b : List Nat) (hs : List (String × String)) (key : String) (num : Int)
    (asyncP : Bool) (env : BrokerEnv) (hS : st.schemaType = "") :
    ∀ subject d hdr, PubEvent.dataPlane subject d hdr ∈
      (produceOptsProduce st sn stationDisplay pName connId (Payload.bytes b) hs key num
        asyncP env).2.1 → d = b := by
  intro subject d hdr hmem
  have hv := validateMsg_no_schema st sn stationDisplay pName connId (Payload.bytes b)
    (setHeader (setHeader hs "$memphis_connectionId" connId) "$memphis_producedBy" pName)
    env b hS rfl
  simp only [produceOptsProduce, hv] at hmem
  rcases hr : resolveStreamName st sn key num with ⟨rres, rr⟩
  rw [hr] at hmem
  cases rres with
  | error e => simp at hmem
  | ok streamName =>
    cases hsubj : resolveSubject st.hasFunctionsSub st.partitionsFunctions streamName with
    | panicked => simp [hsubj] at hmem
    | err e => simp [hsubj] at hmem
    | ok subj =>
      simp only [hsubj] at hmem
      rcases env with ⟨pe, ae, de, nf⟩
      cases pe <;> cases asyncP <;> cases ae <;>
        · simp at hmem
          exact hmem.2.1

/-- Witness for C8 at a concrete input. -/
theorem C8_bytes_published_unchanged_witness :
    PubEvent.dataPlane "s1$1.final" [9, 8]
        [("$memphis_producedBy", "p"), ("$memphis_connectionId", "conn")] ∈
      (produceOptsProduce stOne "s1" "s1" "p" "conn" (Payload.bytes [9, 8]) [] "" (-1)
        true envOk).2.1 ∧
    ([9, 8] : List Nat) = [9, 8] :=
  ⟨by decide,
   C8_bytes_published_unchanged stOne "s1" "s1" "p" "conn" [9, 8] [] "" (-1) true envOk rfl
     "s1$1.final" [9, 8] [("$memphis_producedBy", "p"), ("$memphis_connectionId", "conn")]
     (by decide)⟩

/-! ### C10 -/

/-- C10 counterexample: for a station present in the functions-update map
whose partition list is empty, the resolved stream name is the bare internal
station name, its `'$'`-split has a single element, and indexing element 1
panics — the subject-resolution step does NOT always stay in bounds, contrary
to the claim's "including for a station whose partition list is empty". -/
theorem C10_counterexample_empty_partitions_panic :
    stPanic.hasFunctionsSub = true ∧
    (splitOnChar '$' ("s1".toList)).length = 1 ∧
    produceOptsProduce stPanic "s1" "s1" "p" "conn" (Payload.bytes [1]) [] "" (-1) true envOk =
      (ProduceResult.panicked, [], 0) :=
  ⟨rfl, rfl, rfl⟩

/-- C10 (amended): the subject-resolution step of a produce call never
panics whenever the station's partition list is nonempty (every resolved
stream name then contains a `'$'` separator, so element 1 of the split
exists) or the station is absent from the functions-update map. -/
theorem C10_no_panic_nonempty_partitions (st : StationState)
    (sn stationDisplay pName connId : String) (msg : Payload)
    (hs : List (String × String)) (key : String) (num : Int) (asyncP : Bool)
    (env : BrokerEnv)
    (h : st.partitionsList ≠ [] ∨ st.hasFunctionsSub = false) :
    (produceOptsProduce st sn stationDisplay pName connId msg hs key num asyncP env).1 ≠
      ProduceResult.panicked := by
  intro hcon
  rcases hval : validateMsg st sn stationDisplay pName connId msg
    (setHeader (setHeader hs "$memphis_connectionId" connId) "$memphis_producedBy" pName)
    env with ⟨vres, evs⟩
  simp only [produceOptsProduce, hval] at hcon
  cases vres with
  | error e => simp at hcon
  | ok data =>
    rcases hr : resolveStreamName st sn key num with ⟨rres, rr⟩
    rw [hr] at hcon
    cases rres with
    | error e => simp at hcon
    | ok streamName =>
      cases hsubj : resolveSubject st.hasFunctionsSub st.partitionsFunctions streamName with
      | err e => simp [hsubj] at hcon
      | ok subj =>
        simp only [hsubj] at hcon
        rcases env with ⟨pe, ae, de, nf⟩
        cases pe <;> cases asyncP <;> cases ae <;> simp at hcon
      | panicked =>
        rcases h with hne | hfs
        · obtain ⟨k, rfl⟩ := resolveStreamName_ok_shape st sn key num hne hr
          exact resolveSubject_mkStreamName_ne_panicked _ _ _ _ hsubj
        · rw [hfs, resolveSubject_no_sub] at hsubj
          exact absurd hsubj (by simp)

/-- Witness for the amended C10 at a concrete input: one partition, call
does not panic. -/
theorem C10_no_panic_nonempty_partitions_witness :
    (produceOptsProduce stOne "s1" "s1" "p" "conn" (Payload.bytes [1]) [] "" (-1) true
      envOk).1 ≠ ProduceResult.panicked :=
  C10_no_panic_nonempty_partitions stOne "s1" "s1" "p" "conn" (Payload.bytes [1]) [] ""
    (-1) true envOk (Or.inl (by decide))
